import Mathlib

/-!
Verification development for the VintedScraper core
(src/src/handlers/VintedHandler.ts).

The TypeScript class is shallowly embedded: the private mutable fields
become an explicit state record `St`, the external collaborators
(node-fetch transport, ProxyHandler) become an `Oracle` of response
streams indexed by call counters, and the JavaScript built-ins the code
relies on (`String.prototype.includes`, `String.prototype.split`,
`String.prototype.replaceAll`, `JSON.parse`, `decodeURI`, object key
enumeration order) are implemented as executable Lean functions faithful
to their ECMAScript semantics on the fragments the code exercises.
-/

namespace VintedScraper

/-! ## Generic string helpers (ECMAScript built-ins) -/

/-- Drop `pat` from the front of `l`, or `none` when `pat` is not a prefix. -/
def dropPrefixL : List Char → List Char → Option (List Char)
  | [], l => some l
  | _ :: _, [] => none
  | p :: ps, c :: cs => if p = c then dropPrefixL ps cs else none

/-- Substring containment on char lists, i.e. JS `String.prototype.includes`. -/
def containsSub (pat : List Char) : List Char → Bool
  | [] => (dropPrefixL pat []).isSome
  | c :: cs => (dropPrefixL pat (c :: cs)).isSome || containsSub pat cs

/-- JS `text.includes(pat)`. -/
def includesStr (text pat : String) : Bool :=
  containsSub pat.toList text.toList

/-- JS `String.prototype.replaceAll` with a non-empty string pattern:
left-to-right, non-overlapping, the replacement is not rescanned.
`fuel` bounds the scan; callers pass the input length plus one. -/
def replaceAllL (pat repl : List Char) : Nat → List Char → List Char
  | 0, l => l
  | _ + 1, [] => []
  | fuel + 1, c :: cs =>
    match dropPrefixL pat (c :: cs) with
    | some rest => repl ++ replaceAllL pat repl fuel rest
    | none => c :: replaceAllL pat repl fuel cs

/-- JS `s.replaceAll(pat, repl)` for non-empty `pat`. -/
def replaceAllS (s pat repl : String) : String :=
  String.mk (replaceAllL pat.toList repl.toList (s.toList.length + 1) s.toList)

/-- JS `String.prototype.split` with a non-empty string separator:
non-overlapping, left-to-right. -/
def splitOnL (sep : List Char) : Nat → List Char → List (List Char)
  | 0, l => [l]
  | _ + 1, [] => [[]]
  | fuel + 1, c :: cs =>
    match dropPrefixL sep (c :: cs) with
    | some rest => [] :: splitOnL sep fuel rest
    | none =>
      match splitOnL sep fuel cs with
      | [] => [[c]]
      | h :: t => (c :: h) :: t

/-- JS `s.split(sep)` for non-empty `sep`. -/
def splitOnS (s sep : String) : List String :=
  (splitOnL sep.toList (s.toList.length + 1) s.toList).map String.mk

/-! ## JSON values and `JSON.parse`

Numeric literals are kept as their source lexeme: no claim depends on
the numeric value, and this avoids floating point. Objects are
association lists; duplicate keys in the source text collapse at parse
time exactly as in JS (first occurrence keeps its position, later
occurrences overwrite the value). Arrays are JS objects too and can
carry non-index expando properties (the proxy annotation lands there);
`JSON.parse` creates them with none. -/

inductive JsValue where
  | null
  | bool (b : Bool)
  | num (lit : String)
  | str (s : String)
  | arr (elems : List JsValue) (props : List (String × JsValue))
  | obj (fields : List (String × JsValue))

/-- JS property write on a parsed object: overwrite in place when the key
exists, append otherwise. -/
def insertField (k : String) (v : JsValue) : List (String × JsValue) → List (String × JsValue)
  | [] => [(k, v)]
  | (k0, v0) :: fs => if k0 = k then (k0, v) :: fs else (k0, v0) :: insertField k v fs

/-- Property lookup on a parsed object (keys are unique after parsing). -/
def lookupField (k : String) : List (String × JsValue) → Option JsValue
  | [] => none
  | (k0, v0) :: fs => if k0 = k then some v0 else lookupField k fs

def getField (j : JsValue) (k : String) : Option JsValue :=
  match j with
  | .obj fs => lookupField k fs
  | .arr _ props => lookupField k props
  | _ => none

/-- JSON whitespace. -/
def jsonWs (c : Char) : Bool :=
  c = ' ' || c = '\t' || c = '\n' || c = '\r'

def skipWs : List Char → List Char
  | [] => []
  | c :: cs => if jsonWs c then skipWs cs else c :: cs

def hexDigit (c : Char) : Option Nat :=
  if '0' ≤ c ∧ c ≤ '9' then some (c.toNat - 48)
  else if 'a' ≤ c ∧ c ≤ 'f' then some (c.toNat - 87)
  else if 'A' ≤ c ∧ c ≤ 'F' then some (c.toNat - 55)
  else none

/-- Decode one JSON string escape following a backslash. A `\u` escape
whose value is a lone surrogate (representable in a JS string but not as
a Unicode scalar) is mapped to U+FFFD; no claim exercises that corner. -/
def jsonEscape : List Char → Option (Char × List Char)
  | '"' :: rest => some ('"', rest)
  | '\\' :: rest => some ('\\', rest)
  | '/' :: rest => some ('/', rest)
  | 'b' :: rest => some ('\x08', rest)
  | 'f' :: rest => some ('\x0c', rest)
  | 'n' :: rest => some ('\n', rest)
  | 'r' :: rest => some ('\r', rest)
  | 't' :: rest => some ('\t', rest)
  | 'u' :: h1 :: h2 :: h3 :: h4 :: rest =>
    match hexDigit h1, hexDigit h2, hexDigit h3, hexDigit h4 with
    | some a, some b, some c, some d =>
      let v := ((a * 16 + b) * 16 + c) * 16 + d
      if 0xD800 ≤ v ∧ v ≤ 0xDFFF then some (Char.ofNat 0xFFFD, rest)
      else some (Char.ofNat v, rest)
    | _, _, _, _ => none
  | _ => none

/-- Parse the body of a JSON string literal after the opening quote.
`fuel` bounds the scan; every step consumes at least one character. -/
def parseStringBody : Nat → List Char → Option (List Char × List Char)
  | 0, _ => none
  | _ + 1, [] => none
  | _ + 1, '"' :: rest => some ([], rest)
  | fuel + 1, '\\' :: rest =>
    match jsonEscape rest with
    | none => none
    | some (c, rest2) =>
      match parseStringBody fuel rest2 with
      | none => none
      | some (cs, rest3) => some (c :: cs, rest3)
  | fuel + 1, c :: rest =>
    if c.toNat < 0x20 then none
    else
      match parseStringBody fuel rest with
      | none => none
      | some (cs, rest2) => some (c :: cs, rest2)

def isDigitC (c : Char) : Bool :=
  decide ('0' ≤ c) && decide (c ≤ '9')

def spanDigits : List Char → List Char × List Char
  | [] => ([], [])
  | c :: cs =>
    if isDigitC c then
      let p := spanDigits cs
      (c :: p.1, p.2)
    else ([], c :: cs)

/-- Lex a JSON number literal, returning the lexeme. Grammar:
optional minus, integer part with no leading zero, optional fraction,
optional exponent. -/
def lexNumber (l : List Char) : Option (List Char × List Char) :=
  let (sign, l1) :=
    match l with
    | '-' :: rest => (['-'], rest)
    | _ => (([] : List Char), l)
  match l1 with
  | [] => none
  | c :: _ =>
    if ¬ isDigitC c then none
    else
      let ip := spanDigits l1
      if ip.1.length > 1 ∧ ip.1.headI = '0' then none
      else
        let (fracPart, l2) :=
          match ip.2 with
          | '.' :: rest =>
            let fp := spanDigits rest
            if fp.1 = [] then (none, ip.2) else (some ('.' :: fp.1), fp.2)
          | _ => (none, ip.2)
        match fracPart, ip.2 with
        | none, '.' :: _ => none
        | _, _ =>
          let fracL := fracPart.getD []
          let (expPart, l3) :=
            match l2 with
            | e :: rest =>
              if e = 'e' ∨ e = 'E' then
                let (es, rest2) :=
                  match rest with
                  | '+' :: r2 => (['+'], r2)
                  | '-' :: r2 => (['-'], r2)
                  | _ => (([] : List Char), rest)
                let ep := spanDigits rest2
                if ep.1 = [] then (none, l2) else (some (e :: es ++ ep.1), ep.2)
              else (some [], l2)
            | [] => (some [], l2)
          match expPart, l2 with
          | none, _ => none
          | some el, _ => some (sign ++ ip.1 ++ fracL ++ el, l3)

mutual

/-- Parse one JSON value (leading whitespace allowed). -/
def parseValue : Nat → List Char → Option (JsValue × List Char)
  | 0, _ => none
  | fuel + 1, l =>
    match skipWs l with
    | 'n' :: 'u' :: 'l' :: 'l' :: rest => some (.null, rest)
    | 't' :: 'r' :: 'u' :: 'e' :: rest => some (.bool true, rest)
    | 'f' :: 'a' :: 'l' :: 's' :: 'e' :: rest => some (.bool false, rest)
    | '"' :: rest =>
      match parseStringBody (rest.length + 1) rest with
      | none => none
      | some (cs, rest2) => some (.str (String.mk cs), rest2)
    | '[' :: rest => parseElems fuel rest true
    | '\x7b' :: rest => parseFields fuel rest true []
    | l2 =>
      match lexNumber l2 with
      | none => none
      | some (lit, rest) => some (.num (String.mk lit), rest)

/-- Parse array elements after the opening bracket. `first` is true
before the first element. -/
def parseElems : Nat → List Char → Bool → Option (JsValue × List Char)
  | 0, _, _ => none
  | fuel + 1, l, first =>
    match skipWs l, first with
    | ']' :: rest, true => some (.arr [] [], rest)
    | _, _ =>
      match parseValue fuel l with
      | none => none
      | some (v, rest) =>
        match parseElemsTail fuel rest with
        | none => none
        | some (vs, rest2) => some (.arr (v :: vs) [], rest2)

/-- Parse the tail of an array after one element: a close bracket or a
comma and more elements. -/
def parseElemsTail : Nat → List Char → Option (List JsValue × List Char)
  | 0, _ => none
  | fuel + 1, l =>
    match skipWs l with
    | ']' :: rest => some ([], rest)
    | ',' :: rest =>
      match parseValue fuel rest with
      | none => none
      | some (v, rest2) =>
        match parseElemsTail fuel rest2 with
        | none => none
        | some (vs, rest3) => some (v :: vs, rest3)
    | _ => none

/-- Parse object members after the opening brace, accumulating with JS
duplicate-key semantics. -/
def parseFields : Nat → List Char → Bool → List (String × JsValue) → Option (JsValue × List Char)
  | 0, _, _, _ => none
  | fuel + 1, l, first, acc =>
    match skipWs l, first with
    | '\x7d' :: rest, true => some (.obj acc, rest)
    | '"' :: rest, _ =>
      match parseStringBody (rest.length + 1) rest with
      | none => none
      | some (kcs, rest2) =>
        match skipWs rest2 with
        | ':' :: rest3 =>
          match parseValue fuel rest3 with
          | none => none
          | some (v, rest4) =>
            let acc2 := insertField (String.mk kcs) v acc
            match skipWs rest4 with
            | '\x7d' :: rest5 => some (.obj acc2, rest5)
            | ',' :: rest5 => parseFields fuel rest5 false acc2
            | _ => none
        | _ => none
    | _, _ => none

end

/-- JS `JSON.parse`: parse one value and require only trailing
whitespace. `none` models a thrown SyntaxError. -/
def jsonParse (s : String) : Option JsValue :=
  match parseValue (2 * s.toList.length + 8) s.toList with
  | none => none
  | some (v, rest) => if skipWs rest = [] then some v else none

/-! ## `decodeURI` (ECMA-262 Decode with the uri-reserved set kept) -/

/-- Code units that `decodeURI` leaves percent-encoded. -/
def uriReservedByte (b : Nat) : Bool :=
  b = 0x3b || b = 0x2f || b = 0x3f || b = 0x3a || b = 0x40 || b = 0x26 ||
  b = 0x3d || b = 0x2b || b = 0x24 || b = 0x2c || b = 0x23

/-- Read one percent escape, returning the byte and the original hex
characters. -/
def readPct : List Char → Option (Nat × Char × Char × List Char)
  | '%' :: h1 :: h2 :: rest =>
    match hexDigit h1, hexDigit h2 with
    | some a, some b => some (a * 16 + b, h1, h2, rest)
    | _, _ => none
  | _ => none

def contByte (b : Nat) : Bool := 0x80 ≤ b && b ≤ 0xBF

/-- One decoding step of ECMA-262 Decode: at a `%`, read the full UTF-8
sequence; a malformed sequence models a thrown URIError (`none`). -/
def decodeOne (l : List Char) : Option (List Char × List Char) :=
  match readPct l with
  | none => none
  | some (b, h1, h2, rest) =>
    if b < 0x80 then
      if uriReservedByte b then some (['%', h1, h2], rest)
      else some ([Char.ofNat b], rest)
    else if 0xC2 ≤ b ∧ b ≤ 0xDF then
      match readPct rest with
      | some (c1, _, _, rest2) =>
        if contByte c1 then some ([Char.ofNat ((b - 0xC0) * 64 + (c1 - 0x80))], rest2)
        else none
      | none => none
    else if 0xE0 ≤ b ∧ b ≤ 0xEF then
      match readPct rest with
      | some (c1, _, _, rest2) =>
        match readPct rest2 with
        | some (c2, _, _, rest3) =>
          if contByte c1 ∧ contByte c2 then
            let v := (b - 0xE0) * 4096 + (c1 - 0x80) * 64 + (c2 - 0x80)
            if 0x800 ≤ v ∧ ¬ (0xD800 ≤ v ∧ v ≤ 0xDFFF) then
              some ([Char.ofNat v], rest3)
            else none
          else none
        | none => none
      | none => none
    else if 0xF0 ≤ b ∧ b ≤ 0xF4 then
      match readPct rest with
      | some (c1, _, _, rest2) =>
        match readPct rest2 with
        | some (c2, _, _, rest3) =>
          match readPct rest3 with
          | some (c3, _, _, rest4) =>
            if contByte c1 ∧ contByte c2 ∧ contByte c3 then
              let v := (b - 0xF0) * 262144 + (c1 - 0x80) * 4096 +
                (c2 - 0x80) * 64 + (c3 - 0x80)
              if 0x10000 ≤ v ∧ v ≤ 0x10FFFF then some ([Char.ofNat v], rest4)
              else none
            else none
          | none => none
        | none => none
      | none => none
    else none

/-- Scan of `decodeURI`; each step consumes at least one character, so
fuel one beyond the length always suffices. -/
def decodeURIList : Nat → List Char → Option (List Char)
  | 0, _ => none
  | _ + 1, [] => some []
  | fuel + 1, '%' :: rest =>
    match decodeOne ('%' :: rest) with
    | none => none
    | some (out, rest2) =>
      match decodeURIList fuel rest2 with
      | none => none
      | some tail => some (out ++ tail)
  | fuel + 1, c :: rest =>
    match decodeURIList fuel rest with
    | none => none
    | some tail => some (c :: tail)

/-- JS `decodeURI`; `none` models a thrown URIError. -/
def decodeURI (s : String) : Option String :=
  match decodeURIList (s.toList.length + 1) s.toList with
  | none => none
  | some l => some (String.mk l)

/-! ## The URI regex `^https:\/\/(www.)?vinted\.([a-z]+)\/(vetements|catalog)\?[^\s]+`

Translated directly: the group `(www.)?` contains an unescaped dot, so
it matches `www` followed by any character except a line terminator
(JS `.` without the s flag). `\s` is the ECMAScript whitespace class. -/

def isLowerAlpha (c : Char) : Bool :=
  decide ('a' ≤ c) && decide (c ≤ 'z')

def spanLower : List Char → List Char × List Char
  | [] => ([], [])
  | c :: cs =>
    if isLowerAlpha c then
      let p := spanLower cs
      (c :: p.1, p.2)
    else ([], c :: cs)

/-- ECMAScript `\s`: whitespace and line terminators. -/
def isJsSpace (c : Char) : Bool :=
  let n := c.toNat
  n = 0x09 || n = 0x0a || n = 0x0b || n = 0x0c || n = 0x0d || n = 0x20 ||
  n = 0xa0 || n = 0x1680 || (0x2000 ≤ n && n ≤ 0x200a) || n = 0x2028 ||
  n = 0x2029 || n = 0x202f || n = 0x205f || n = 0x3000 || n = 0xfeff

/-- ECMAScript `.` without the s flag: any char except a line terminator. -/
def isJsDotChar (c : Char) : Bool :=
  let n := c.toNat
  ¬ (n = 0x0a || n = 0x0d || n = 0x2028 || n = 0x2029)

/-- Match `vinted\.([a-z]+)\/(vetements|catalog)\?[^\s]+` at the front
of `l` (the regex has no end anchor, so trailing text is free). -/
def vintedHostTail (l : List Char) : Bool :=
  match dropPrefixL "vinted.".toList l with
  | none => false
  | some r1 =>
    let p := spanLower r1
    if p.1 = [] then false
    else
      match p.2 with
      | '/' :: r2 =>
        let afterPath :=
          match dropPrefixL "vetements?".toList r2 with
          | some r3 => some r3
          | none => dropPrefixL "catalog?".toList r2
        match afterPath with
        | some (c :: _) => ¬ isJsSpace c
        | _ => false
      | _ => false

/-- The whole regex test (`String.prototype.match` against the pattern
returning non-null). -/
def vintedRegexTest (s : String) : Bool :=
  match dropPrefixL "https://".toList s.toList with
  | none => false
  | some r =>
    (match r with
     | 'w' :: 'w' :: 'w' :: c :: rest => isJsDotChar c && vintedHostTail rest
     | _ => false) ||
    vintedHostTail r

/-! ## The query normalizer `#getQueryParameters` -/

inductive UrlErr where
  | uriError
  | invalidFormat
  | invalidParams
  | invalidParam (p : String)
deriving DecidableEq

/-- JS object key ordering: a key that is a canonical array index (the
decimal form of some n with n < 2^32 - 1) is enumerated before all other
keys, in ascending numeric order; remaining keys keep insertion order. -/
def isArrayIndex (s : String) : Option Nat :=
  match s.toList with
  | [] => none
  | c :: cs =>
    if ¬ (c :: cs).all isDigitC then none
    else if c = '0' ∧ cs ≠ [] then none
    else
      let n := (c :: cs).foldl (fun acc d => acc * 10 + (d.toNat - 48)) 0
      if n < 4294967295 then some n else none

def indexRank (p : String × String) : Nat := (isArrayIndex p.1).getD 0

/-- Enumeration order of `Object.keys` over the built association list. -/
def jsKeyOrder (ps : List (String × String)) : List (String × String) :=
  (ps.filter (fun p => (isArrayIndex p.1).isSome)).insertionSort
      (fun a b => indexRank a ≤ indexRank b) ++
    ps.filter (fun p => (isArrayIndex p.1).isNone)

def assocGet (k : String) : List (String × String) → Option String
  | [] => none
  | (k0, v0) :: ps => if k0 = k then some v0 else assocGet k ps

def assocSet (k v : String) : List (String × String) → List (String × String)
  | [] => [(k, v)]
  | (k0, v0) :: ps => if k0 = k then (k0, v) :: ps else (k0, v0) :: assocSet k v ps

/-- One step of the `params.forEach` loop: split on `=`, require exactly
two parts, and store with JS truthiness on the existing entry
(`if (paramsObject[key])` is false for a missing key and for the empty
string alike). -/
def addParam (ps : List (String × String)) (param : String) :
    Except UrlErr (List (String × String)) :=
  let parts := splitOnS param "="
  if parts.length ≠ 2 then .error (.invalidParam param)
  else
    let k := parts.headI
    let v := parts.getD 1 ""
    match assocGet k ps with
    | some oldv =>
      if oldv ≠ "" then .ok (assocSet k (oldv ++ "," ++ v) ps)
      else .ok (assocSet k v ps)
    | none => .ok (ps ++ [(k, v)])

def buildParams : List (String × String) → List String → Except UrlErr (List (String × String))
  | ps, [] => .ok ps
  | ps, param :: rest =>
    match addParam ps param with
    | .error e => .error e
    | .ok ps2 => buildParams ps2 rest

/-- Render the final query string, skipping the key `time`. -/
def renderParams (ps : List (String × String)) : String :=
  ps.foldl
    (fun acc p =>
      if p.1 = "time" then acc
      else if acc = "" then p.1 ++ "=" ++ p.2
      else acc ++ "&" ++ p.1 ++ "=" ++ p.2)
    ""

/-- The private method `#getQueryParameters`, line for line: decode,
regex-check the shape, require exactly one `?`, apply the three textual
substitutions, split into parameters, merge, render. The constructors of
`UrlErr` carry which `Error` message is thrown. -/
def getQueryParameters (url : String) : Except UrlErr String :=
  match decodeURI url with
  | none => .error .uriError
  | some uri =>
    if ¬ vintedRegexTest uri then .error .invalidFormat
    else if (splitOnS uri "?").length ≠ 2 then .error .invalidParams
    else
      let q0 := (splitOnS uri "?").getD 1 ""
      let q1 := replaceAllS q0 "catalog[]" "catalog_id[]"
      let q2 := replaceAllS q1 "status[]" "status_id[]"
      let q3 := replaceAllS q2 "[]" "s"
      match buildParams [] (splitOnS q3 "&") with
      | .error e => .error e
      | .ok ps => .ok (renderParams (jsKeyOrder ps))

/-! ## The request pipeline

The class instance becomes the state record `St`; the external
collaborators become the `Oracle`: `proxyAt k` is the value returned by
the k-th `ProxyHandler.getProxy()` call, `setCookieAt k` the
`set-cookie` header of the k-th session-cookie fetch (node-fetch
`headers.get` yields null for an absent header), and `bodyAt k` the body
text of the k-th authenticated GET. -/

structure Oracle where
  proxyAt : Nat → String
  setCookieAt : Nat → Option String
  bodyAt : Nat → String

structure St where
  hasProxyHandler : Bool
  cookie : Option String
  nProxy : Nat
  nSess : Nat
  nGet : Nat
deriving DecidableEq

/-- Modelled from the spec: `ProxyHandler` is not under src/; §6 gives
its single operation `getProxy() → string` with no further contract, so
its k-th result is oracle-supplied. The surrounding
`let proxy = ""; if (this.#proxyHandler) proxy = ...getProxy()` shape
is from the source. -/
def getProxy (o : Oracle) (s : St) : String × St :=
  if s.hasProxyHandler then (o.proxyAt s.nProxy, { s with nProxy := s.nProxy + 1 })
  else ("", s)

inductive SessErr where
  | acquisition
  | typeError
deriving DecidableEq

/-- Cookie extraction of `#fetchSessionCookie`: absent header or a header
without the cookie name throws `Error("Cannot fetch cookie")`
(`acquisition`); a header containing the name but no occurrence of
`_vinted_fr_session=` makes `split(...)[1]` undefined and the subsequent
`.split(";")` a TypeError. -/
def extractSessionCookie (hdr : Option String) : Except SessErr String :=
  match hdr with
  | none => .error .acquisition
  | some h =>
    if ¬ includesStr h "_vinted_fr_session" then .error .acquisition
    else
      match (splitOnS h "_vinted_fr_session=").get? 1 with
      | none => .error .typeError
      | some tail => .ok ((splitOnS tail ";").headI)

/-- The private method `#fetchSessionCookie`: obtain a proxy when a
handler exists, fetch the site root (consuming one `setCookieAt` slot),
extract the cookie and store it, overwriting any previous value. -/
def fetchSessionCookie (o : Oracle) (s : St) : Except SessErr St :=
  let p := getProxy o s
  let s1 := p.2
  let s2 := { s1 with nSess := s1.nSess + 1 }
  match extractSessionCookie (o.setCookieAt s1.nSess) with
  | .error e => .error e
  | .ok tok => .ok { s2 with cookie := some tok }

/-- JS falsiness of `this.#sessionCookie`: undefined or the empty string. -/
def cookieMissing : Option String → Bool
  | none => true
  | some s => s = ""

/-- The `if (!this.#sessionCookie) await this.#fetchSessionCookie()`
guard at the top of `#request`. -/
def ensureSession (o : Oracle) (s : St) : Except SessErr St :=
  if cookieMissing s.cookie then fetchSessionCookie o s else .ok s

/-- The `if (proxy !== "") json.proxy = proxy` annotation, a JS property
write: an object gets the field overwritten in place or appended, an
array carries it as an expando property; writing a property of null
always throws a TypeError, and writing one of a number, string or
boolean throws in strict mode (`none` models the throw) — the source is
an ES module, and module code always runs strict. -/
def setProxyField (j : JsValue) (p : String) : Option JsValue :=
  match j with
  | .obj fs => some (.obj (insertField "proxy" (.str p) fs))
  | .arr es props => some (.arr es (insertField "proxy" (.str p) props))
  | _ => none

/-- The `json.message_code === lit` comparison: the property read throws
a TypeError when `json` is null (`none`); on any other value — numbers,
strings and booleans box and have no own properties, arrays and objects
use theirs — strict equality with the string literal holds exactly for a
string-valued `message_code` property. -/
def messageCodeIs : JsValue → String → Option Bool
  | .null, _ => none
  | j, lit =>
    some
      (match getField j "message_code" with
      | some (.str t) => t = lit
      | _ => false)

inductive TermErr where
  | rateLimit
  | gateway
  | malformedJson
  | notFound
deriving DecidableEq

/-- Outcome of one entry into `#request` before any stale-token retry. -/
inductive AttemptRes where
  | ok (j : JsValue) (s : St)
  | err (e : TermErr) (s : St)
  | stale (s : St)
  | sessErr (e : SessErr)
  | typeErr (s : St)

/-- The two `json.message_code` comparisons and the final return of
`#request`: the first read throws a TypeError on null; once it returned,
`json2` is not null, so the second read cannot throw and its value is
taken directly. -/
def sentinelDispatch (json2 : JsValue) (s3 : St) : AttemptRes :=
  match messageCodeIs json2 "invalid_authentication_token" with
  | none => .typeErr s3
  | some staleHit =>
    if staleHit then .stale s3
    else if (messageCodeIs json2 "not_found").getD false then .err .notFound s3
    else .ok json2 s3

/-- The body of `#request` after the session guard: pick a proxy, GET
(consuming one `bodyAt` slot), annotate (a step that can throw), then
classify the body text in source order. -/
def classifyStep (o : Oracle) (s1 : St) : AttemptRes :=
  let p := getProxy o s1
  let proxy := p.1
  let text := o.bodyAt p.2.nGet
  let s3 := { p.2 with nGet := p.2.nGet + 1 }
  if includesStr text "Request rate limit exceeded" then .err .rateLimit s3
  else if includesStr text "<" then .err .gateway s3
  else
    match jsonParse text with
    | none => .err .malformedJson s3
    | some json =>
      match (if proxy ≠ "" then setProxyField json proxy else some json) with
      | none => .typeErr s3
      | some json2 => sentinelDispatch json2 s3

/-- One entry into `#request` up to the stale-token branch. -/
def attempt (o : Oracle) (s : St) : AttemptRes :=
  match ensureSession o s with
  | .error e => .sessErr e
  | .ok s1 => classifyStep o s1

inductive ReqResult where
  | ok (j : JsValue) (s : St)
  | err (e : TermErr) (s : St)
  | sessErr (e : SessErr)
  | typeErr (s : St)
  | diverge

/-- The full `#request`: on the stale sentinel the source runs
`await this.#fetchSessionCookie(); return this.#request(url)` with no
depth bound, so the re-entry is modelled with explicit fuel and `diverge`
marks a recursion that the given budget cannot finish. -/
def requestRec (o : Oracle) : Nat → St → ReqResult
  | 0, _ => .diverge
  | fuel + 1, s =>
    match attempt o s with
    | .ok j s2 => .ok j s2
    | .err e s2 => .err e s2
    | .sessErr e => .sessErr e
    | .typeErr s2 => .typeErr s2
    | .stale s2 =>
      match fetchSessionCookie o s2 with
      | .error e => .sessErr e
      | .ok s3 => requestRec o fuel s3

/-! ## `boostItem`

The loop body is wrapped in try/catch; a synchronous throw while
obtaining a proxy or starting the request runs `i -= 1`, after which the
loop header runs `i += 1`. `failAt k` says whether the k-th attempt
throws; `fuel` bounds the number of attempts and `none` marks a budget
that did not reach `i >= views`. The result counts dispatched fetches. -/
def boostLoop (failAt : Nat → Bool) : Nat → Int → Int → Nat → Nat → Option Nat
  | 0, i, views, _, dispatched => if i < views then none else some dispatched
  | fuel + 1, i, views, k, dispatched =>
    if i < views then
      if failAt k then boostLoop failAt fuel (i - 1 + 1) views (k + 1) dispatched
      else boostLoop failAt fuel (i + 1) views (k + 1) (dispatched + 1)
    else some dispatched

def boostItem (failAt : Nat → Bool) (fuel : Nat) (views : Int) : Option Nat :=
  boostLoop failAt fuel 0 views 0 0

/-- The instance method `#getQueryParameters` reads no instance state;
its translation takes the receiver and ignores it, which is what the
purity claims quantify over. -/
def getQueryParametersM (_receiver : St) (url : String) : Except UrlErr String :=
  getQueryParameters url

/-! ## Spec-side classifier for the priority-order claim

Written from the claim's own words, to be compared with the pipeline:
rate-limit substring first, then the HTML heuristic, then JSON parsing,
then the stale sentinel, then the not-found sentinel, then success. -/

inductive SpecClass where
  | rateLimit
  | gateway
  | malformedJson
  | stale
  | notFound
  | success
  | jsTypeError
deriving DecidableEq

/-- A number, string or boolean: a parsed value whose property write
throws in strict mode, unlike arrays and objects. -/
def isJsPrimitive : JsValue → Bool
  | .num _ => true
  | .str _ => true
  | .bool _ => true
  | _ => false

/-- Spec-side restatement of the classification priority of amended
claim C2 (not a translation of the source; the theorem compares the
two): the rate-limit substring first, then the HTML heuristic on a `<`
character, then JSON parse failure; a body parsing to null throws a
TypeError at the sentinel read, and with a non-empty proxy descriptor a
body parsing to a number, string or boolean throws a TypeError at the
annotation write; otherwise the stale sentinel is checked, then the
not_found sentinel, and everything else is a success. -/
def specClassify (body : String) (proxy : String) : SpecClass :=
  if includesStr body "Request rate limit exceeded" then .rateLimit
  else if includesStr body "<" then .gateway
  else
    match jsonParse body with
    | none => .malformedJson
    | some .null => .jsTypeError
    | some j =>
      if proxy ≠ "" ∧ isJsPrimitive j = true then .jsTypeError
      else if (messageCodeIs j "invalid_authentication_token").getD false then .stale
      else if (messageCodeIs j "not_found").getD false then .notFound
      else .success

/-- Forget state and payload of an attempt outcome, keeping the
classification tag; `none` for a failed session acquisition (no body was
classified). -/
def attemptClass : AttemptRes → Option SpecClass
  | .ok _ _ => some .success
  | .err .rateLimit _ => some .rateLimit
  | .err .gateway _ => some .gateway
  | .err .malformedJson _ => some .malformedJson
  | .err .notFound _ => some .notFound
  | .stale _ => some .stale
  | .sessErr _ => none
  | .typeErr _ => some .jsTypeError

/-- The state carried by an attempt outcome, when one was reached. -/
def attemptState : AttemptRes → Option St
  | .ok _ s => some s
  | .err _ s => some s
  | .stale s => some s
  | .sessErr _ => none
  | .typeErr s => some s

/-! ## Concrete fixtures used by witnesses and counterexamples -/

def staleBody : String := "\x7b\"message_code\":\"invalid_authentication_token\"\x7d"

def staleObj : JsValue := .obj [("message_code", .str "invalid_authentication_token")]

def goodBody : String := "\x7b\"id\":1\x7d"

def goodObj : JsValue := .obj [("id", .num "1")]

def notFoundBody : String := "\x7b\"message_code\":\"not_found\"\x7d"

def rateBody : String := "Request rate limit exceeded"

def hdrA : String := "secure; _vinted_fr_session=tokA; path=/"

def hdrB : String := "secure; _vinted_fr_session=tokB; path=/"

/-- Server that answers the first two GETs with the stale-token sentinel
and the third with a success payload; session fetches always succeed. -/
def oTwoStale : Oracle where
  proxyAt := fun _ => ""
  setCookieAt := fun k => if k = 0 then some hdrA else some hdrB
  bodyAt := fun k => if k < 2 then staleBody else goodBody

/-- Server that answers every GET with the stale-token sentinel and every
session fetch with a fresh valid cookie. -/
def oAllStale : Oracle where
  proxyAt := fun _ => ""
  setCookieAt := fun _ => some hdrB
  bodyAt := fun _ => staleBody

/-- Server used for the C2 witness: always rate limited. -/
def oRate : Oracle where
  proxyAt := fun _ => ""
  setCookieAt := fun _ => some hdrB
  bodyAt := fun _ => rateBody

/-- Server used for the C9 witness: always not_found. -/
def oNotFound : Oracle where
  proxyAt := fun _ => ""
  setCookieAt := fun _ => some hdrB
  bodyAt := fun _ => notFoundBody

/-- Server whose every response body is the four characters `null` —
valid JSON whose parse result crashes the sentinel read. -/
def oNullBody : Oracle where
  proxyAt := fun _ => ""
  setCookieAt := fun _ => some hdrB
  bodyAt := fun _ => "null"

/-- Server used for the C5 witness: one stale response, then success. -/
def oStaleThenGood : Oracle where
  proxyAt := fun _ => ""
  setCookieAt := fun k => if k = 0 then some hdrA else some hdrB
  bodyAt := fun k => if k = 0 then staleBody else goodBody

/-- Server used for the C10 witness: distinct proxy per `getProxy` call,
one stale response, then success. -/
def oProxyStale : Oracle where
  proxyAt := fun k => if k = 0 then "pA" else if k = 1 then "pB" else "pC"
  setCookieAt := fun k => if k = 0 then some hdrA else some hdrB
  bodyAt := fun k => if k = 0 then staleBody else goodBody

/-- Instance state holding a session, no proxy handler. -/
def sReady : St := ⟨false, some "tok0", 0, 0, 0⟩

/-- Fresh instance state: no session yet, no proxy handler. -/
def sFresh : St := ⟨false, none, 0, 0, 0⟩

/-- Instance state holding a session, with a proxy handler. -/
def sReadyP : St := ⟨true, some "tok0", 0, 0, 0⟩

/-! # Theorems -/

/-! ## Shared helper lemmas -/

theorem lookupField_insertField_ne (k k2 : String) (v : JsValue)
    (fs : List (String × JsValue)) (hne : k ≠ k2) :
    lookupField k2 (insertField k v fs) = lookupField k2 fs := by
  induction fs with
  | nil => simp [insertField, lookupField, hne]
  | cons hd tl ih =>
    obtain ⟨k0, v0⟩ := hd
    by_cases h0 : k0 = k
    · subst h0
      simp [insertField, lookupField, hne]
    · simp [insertField, lookupField, h0, ih]

theorem getProxy_snd_core (o : Oracle) (s : St) :
    (getProxy o s).2.cookie = s.cookie ∧ (getProxy o s).2.nGet = s.nGet ∧
      (getProxy o s).2.nSess = s.nSess ∧
      (getProxy o s).2.hasProxyHandler = s.hasProxyHandler := by
  unfold getProxy
  split <;> simp

theorem ensureSession_ready (o : Oracle) (s : St)
    (h : cookieMissing s.cookie = false) : ensureSession o s = .ok s := by
  unfold ensureSession
  rw [h]
  rfl

theorem attempt_ready (o : Oracle) (s : St)
    (h : cookieMissing s.cookie = false) : attempt o s = classifyStep o s := by
  unfold attempt
  rw [ensureSession_ready o s h]

theorem lookupField_insertField_self (k : String) (v : JsValue)
    (fs : List (String × JsValue)) :
    lookupField k (insertField k v fs) = some v := by
  induction fs with
  | nil => simp [insertField, lookupField]
  | cons hd tl ih =>
    obtain ⟨k0, v0⟩ := hd
    by_cases h0 : k0 = k
    · subst h0
      simp [insertField, lookupField]
    · simp [insertField, lookupField, h0, ih]

theorem setProxyField_obj (fs : List (String × JsValue)) (p : String) :
    setProxyField (.obj fs) p = some (.obj (insertField "proxy" (.str p) fs)) := rfl

theorem setProxyField_arr (es : List JsValue) (props : List (String × JsValue))
    (p : String) :
    setProxyField (.arr es props) p =
      some (.arr es (insertField "proxy" (.str p) props)) := rfl

theorem messageCodeIs_setProxyField (j j2 : JsValue) (p lit : String)
    (h : setProxyField j p = some j2) :
    messageCodeIs j2 lit = messageCodeIs j lit := by
  cases j with
  | null => simp [setProxyField] at h
  | bool b => simp [setProxyField] at h
  | num l => simp [setProxyField] at h
  | str t => simp [setProxyField] at h
  | arr es props =>
    rw [setProxyField_arr, Option.some.injEq] at h
    rw [← h]
    show some _ = some _
    rw [Option.some.injEq]
    have hgf : getField (JsValue.arr es (insertField "proxy" (JsValue.str p) props))
        "message_code" = getField (JsValue.arr es props) "message_code" := by
      show lookupField "message_code" (insertField "proxy" (JsValue.str p) props) =
        lookupField "message_code" props
      exact lookupField_insertField_ne "proxy" "message_code" _ _ (by decide)
    rw [hgf]
  | obj fs =>
    rw [setProxyField_obj, Option.some.injEq] at h
    rw [← h]
    show some _ = some _
    rw [Option.some.injEq]
    have hgf : getField (JsValue.obj (insertField "proxy" (JsValue.str p) fs))
        "message_code" = getField (JsValue.obj fs) "message_code" := by
      show lookupField "message_code" (insertField "proxy" (JsValue.str p) fs) =
        lookupField "message_code" fs
      exact lookupField_insertField_ne "proxy" "message_code" _ _ (by decide)
    rw [hgf]

theorem getField_setProxyField (j j2 : JsValue) (p : String)
    (h : setProxyField j p = some j2) :
    getField j2 "proxy" = some (.str p) := by
  cases j with
  | null => simp [setProxyField] at h
  | bool b => simp [setProxyField] at h
  | num l => simp [setProxyField] at h
  | str t => simp [setProxyField] at h
  | arr es props =>
    rw [setProxyField_arr, Option.some.injEq] at h
    rw [← h]
    exact lookupField_insertField_self _ _ _
  | obj fs =>
    rw [setProxyField_obj, Option.some.injEq] at h
    rw [← h]
    exact lookupField_insertField_self _ _ _

theorem messageCodeIs_annotated (j j2 : JsValue) (p lit : String)
    (h : (if p ≠ "" then setProxyField j p else some j) = some j2) :
    messageCodeIs j2 lit = messageCodeIs j lit := by
  by_cases hp : p = ""
  · rw [if_neg (show ¬ (p ≠ "") from not_not_intro hp)] at h
    cases h
    rfl
  · rw [if_pos (show p ≠ "" from hp)] at h
    exact messageCodeIs_setProxyField j j2 p lit h

theorem attemptClass_sentinelDispatch (j : JsValue) (s3 : St)
    (hnn : messageCodeIs j "invalid_authentication_token" ≠ none) :
    attemptClass (sentinelDispatch j s3) =
      some
        (if (messageCodeIs j "invalid_authentication_token").getD false then SpecClass.stale
        else if (messageCodeIs j "not_found").getD false then SpecClass.notFound
        else SpecClass.success) := by
  unfold sentinelDispatch
  cases hmc : messageCodeIs j "invalid_authentication_token" with
  | none => exact absurd hmc hnn
  | some b =>
    simp only [Option.getD_some]
    cases b with
    | true => rfl
    | false => split_ifs <;> rfl

theorem attemptState_sentinelDispatch (j : JsValue) (s3 : St) :
    attemptState (sentinelDispatch j s3) = some s3 := by
  unfold sentinelDispatch
  cases messageCodeIs j "invalid_authentication_token" with
  | none => rfl
  | some b =>
    dsimp only
    split_ifs <;> rfl

theorem sentinelDispatch_stale (j : JsValue) (s3 : St)
    (h : messageCodeIs j "invalid_authentication_token" = some true) :
    sentinelDispatch j s3 = .stale s3 := by
  unfold sentinelDispatch
  rw [h]
  rfl

theorem sentinelDispatch_ok (j : JsValue) (s3 : St)
    (h1 : messageCodeIs j "invalid_authentication_token" = some false)
    (h2 : messageCodeIs j "not_found" = some false) :
    sentinelDispatch j s3 = .ok j s3 := by
  unfold sentinelDispatch
  rw [h1, h2]
  rfl

theorem classifyStep_class (o : Oracle) (s : St) :
    attemptClass (classifyStep o s) =
      some (specClassify (o.bodyAt s.nGet) (getProxy o s).1) := by
  have hg := (getProxy_snd_core o s).2.1
  unfold classifyStep specClassify
  dsimp only
  simp only [hg]
  by_cases h1 : includesStr (o.bodyAt s.nGet) "Request rate limit exceeded" = true
  · rw [if_pos h1, if_pos h1]
    rfl
  · rw [if_neg h1, if_neg h1]
    by_cases h2 : includesStr (o.bodyAt s.nGet) "<" = true
    · rw [if_pos h2, if_pos h2]
      rfl
    · rw [if_neg h2, if_neg h2]
      cases hj : jsonParse (o.bodyAt s.nGet) with
      | none => rfl
      | some j =>
        dsimp only
        by_cases hp : (getProxy o s).1 = ""
        · rw [if_neg (show ¬ ((getProxy o s).1 ≠ "") from not_not_intro hp)]
          dsimp only
          cases j with
          | null => rfl
          | bool b =>
            dsimp only
            rw [if_neg (show ¬ ((getProxy o s).1 ≠ "" ∧
              isJsPrimitive (JsValue.bool b) = true) from fun hc => hc.1 hp)]
            exact attemptClass_sentinelDispatch _ _ (fun hc => Option.noConfusion hc)
          | num l =>
            dsimp only
            rw [if_neg (show ¬ ((getProxy o s).1 ≠ "" ∧
              isJsPrimitive (JsValue.num l) = true) from fun hc => hc.1 hp)]
            exact attemptClass_sentinelDispatch _ _ (fun hc => Option.noConfusion hc)
          | str t =>
            dsimp only
            rw [if_neg (show ¬ ((getProxy o s).1 ≠ "" ∧
              isJsPrimitive (JsValue.str t) = true) from fun hc => hc.1 hp)]
            exact attemptClass_sentinelDispatch _ _ (fun hc => Option.noConfusion hc)
          | arr es props =>
            dsimp only
            rw [if_neg (show ¬ ((getProxy o s).1 ≠ "" ∧
              isJsPrimitive (JsValue.arr es props) = true) from fun hc => hc.1 hp)]
            exact attemptClass_sentinelDispatch _ _ (fun hc => Option.noConfusion hc)
          | obj fs =>
            dsimp only
            rw [if_neg (show ¬ ((getProxy o s).1 ≠ "" ∧
              isJsPrimitive (JsValue.obj fs) = true) from fun hc => hc.1 hp)]
            exact attemptClass_sentinelDispatch _ _ (fun hc => Option.noConfusion hc)
        · rw [if_pos (show (getProxy o s).1 ≠ "" from hp)]
          cases j with
          | null => rfl
          | bool b =>
            dsimp only
            rw [if_pos (show ((getProxy o s).1 ≠ "" ∧
              isJsPrimitive (JsValue.bool b) = true) from ⟨hp, rfl⟩)]
            rfl
          | num l =>
            dsimp only
            rw [if_pos (show ((getProxy o s).1 ≠ "" ∧
              isJsPrimitive (JsValue.num l) = true) from ⟨hp, rfl⟩)]
            rfl
          | str t =>
            dsimp only
            rw [if_pos (show ((getProxy o s).1 ≠ "" ∧
              isJsPrimitive (JsValue.str t) = true) from ⟨hp, rfl⟩)]
            rfl
          | arr es props =>
            dsimp only
            rw [setProxyField_arr]
            dsimp only
            rw [attemptClass_sentinelDispatch _ _ (fun hc => Option.noConfusion hc)]
            rw [messageCodeIs_setProxyField (JsValue.arr es props) _ ((getProxy o s).1)
                "invalid_authentication_token" rfl,
              messageCodeIs_setProxyField (JsValue.arr es props) _ ((getProxy o s).1)
                "not_found" rfl]
            rw [if_neg (show ¬ ((getProxy o s).1 ≠ "" ∧
              isJsPrimitive (JsValue.arr es props) = true) from fun hc =>
                Bool.noConfusion hc.2)]
          | obj fs =>
            dsimp only
            rw [setProxyField_obj]
            dsimp only
            rw [attemptClass_sentinelDispatch _ _ (fun hc => Option.noConfusion hc)]
            rw [messageCodeIs_setProxyField (JsValue.obj fs) _ ((getProxy o s).1)
                "invalid_authentication_token" rfl,
              messageCodeIs_setProxyField (JsValue.obj fs) _ ((getProxy o s).1)
                "not_found" rfl]
            rw [if_neg (show ¬ ((getProxy o s).1 ≠ "" ∧
              isJsPrimitive (JsValue.obj fs) = true) from fun hc =>
                Bool.noConfusion hc.2)]

theorem classifyStep_cookie (o : Oracle) (s s2 : St)
    (h : attemptState (classifyStep o s) = some s2) : s2.cookie = s.cookie := by
  have hc := (getProxy_snd_core o s).1
  unfold classifyStep at h
  dsimp only at h
  by_cases h1 :
      includesStr (o.bodyAt (getProxy o s).2.nGet) "Request rate limit exceeded" = true
  · rw [if_pos h1] at h
    simp only [attemptState, Option.some.injEq] at h
    rw [← h]
    exact hc
  · rw [if_neg h1] at h
    by_cases h2 : includesStr (o.bodyAt (getProxy o s).2.nGet) "<" = true
    · rw [if_pos h2] at h
      simp only [attemptState, Option.some.injEq] at h
      rw [← h]
      exact hc
    · rw [if_neg h2] at h
      cases hj : jsonParse (o.bodyAt (getProxy o s).2.nGet) with
      | none =>
        rw [hj] at h
        simp only [attemptState, Option.some.injEq] at h
        rw [← h]
        exact hc
      | some j =>
        rw [hj] at h
        dsimp only at h
        cases hann : (if (getProxy o s).1 ≠ ""
            then setProxyField j (getProxy o s).1 else some j) with
        | none =>
          rw [hann] at h
          simp only [attemptState, Option.some.injEq] at h
          rw [← h]
          exact hc
        | some j2 =>
          rw [hann] at h
          dsimp only at h
          rw [attemptState_sentinelDispatch, Option.some.injEq] at h
          rw [← h]
          exact hc

/-- C2 counterexample: the four-character body `null` is valid JSON with
no rate-limit substring and no `<`, so the claim demands it be returned
as a Success; the program instead throws a TypeError when
`json.message_code` dereferences the parsed null. -/
theorem c2_counterexample :
    jsonParse "null" = some .null ∧
      attempt oNullBody sReady = .typeErr ⟨false, some "tok0", 0, 0, 1⟩ := by
  exact ⟨by rfl, by rfl⟩

/-- C2 (amended): with a session in hand, one pass of the pipeline
classifies the response body by the claim's priority order — the
rate-limit substring first (even for valid JSON or bodies with a `<`),
then the HTML heuristic on `<`, then JSON parse failure, then the
stale-token sentinel, then the not_found sentinel, then success — except
that a body parsing to null throws a TypeError at the sentinel read, and
a body parsing to a number, string or boolean throws a TypeError at the
proxy annotation when a non-empty proxy descriptor is in use. -/
theorem c2_classification_priority (o : Oracle) (s : St)
    (h : cookieMissing s.cookie = false) :
    attemptClass (attempt o s) =
      some (specClassify (o.bodyAt s.nGet) (getProxy o s).1) := by
  rw [attempt_ready o s h]
  exact classifyStep_class o s

theorem c2_classification_priority_witness :
    attemptClass (attempt oRate sReady) = some SpecClass.rateLimit ∧
      specClassify (oRate.bodyAt sReady.nGet) (getProxy oRate sReady).1 =
        SpecClass.rateLimit := by
  have h := c2_classification_priority oRate sReady (by rfl)
  have hs : specClassify (oRate.bodyAt sReady.nGet) (getProxy oRate sReady).1 =
      SpecClass.rateLimit := by rfl
  exact ⟨by rw [h, hs], hs⟩

/-- C9: whenever one pass of the pipeline reaches a classification
outcome (a terminal error, a success or the stale signal), the stored
session token in the resulting state equals the token after the session
guard, i.e. the token held when that pass's GET was issued; only the
stale-token branch (run afterwards by the retry driver) mutates it. -/
theorem c9_terminal_preserves_token (o : Oracle) (s s1 : St)
    (hok : ensureSession o s = .ok s1) :
    ∀ s2, attemptState (attempt o s) = some s2 → s2.cookie = s1.cookie := by
  intro s2 h
  unfold attempt at h
  rw [hok] at h
  exact classifyStep_cookie o s1 s2 h

theorem c9_terminal_preserves_token_witness :
    attempt oNotFound sReady = .err .notFound ⟨false, some "tok0", 0, 0, 1⟩ ∧
      (⟨false, some "tok0", 0, 0, 1⟩ : St).cookie = sReady.cookie := by
  refine ⟨by rfl, ?_⟩
  exact c9_terminal_preserves_token oNotFound sReady sReady (by rfl)
    ⟨false, some "tok0", 0, 0, 1⟩ (by rfl)

theorem boostLoop_some_eq (failAt : Nat → Bool) :
    ∀ (fuel : Nat) (i views : Int) (k d d2 : Nat),
      boostLoop failAt fuel i views k d = some d2 → d2 = d + (views - i).toNat := by
  intro fuel
  induction fuel with
  | zero =>
    intro i views k d d2 h
    unfold boostLoop at h
    split at h
    · exact absurd h (by simp)
    · simp only [Option.some.injEq] at h
      omega
  | succ n ih =>
    intro i views k d d2 h
    unfold boostLoop at h
    split at h
    · split at h
      · have hi : i - 1 + 1 = i := by omega
        rw [hi] at h
        exact ih i views (k + 1) d d2 h
      · have := ih (i + 1) views (k + 1) (d + 1) d2 h
        omega
    · simp only [Option.some.injEq] at h
      omega

theorem boostLoop_all_ok :
    ∀ (fuel : Nat) (i views : Int) (k d : Nat), (views - i).toNat = fuel →
      boostLoop (fun _ => false) fuel i views k d = some (d + fuel) := by
  intro fuel
  induction fuel with
  | zero =>
    intro i views k d h
    unfold boostLoop
    rw [if_neg (by omega)]
    simp
  | succ n ih =>
    intro i views k d h
    unfold boostLoop
    rw [if_pos (by omega), if_neg (by simp)]
    rw [ih (i + 1) views (k + 1) (d + 1) (by omega)]
    congr 1
    omega

/-- C6: when no dispatch attempt throws, `boostItem(url, n)` performs
exactly `n` dispatches (with an attempt budget of exactly `n`); and for
every throw oracle, whenever the loop terminates within its budget it
has dispatched exactly `n` fetches — a throwing attempt decrements and
re-increments `i`, so it never consumes an iteration; the result type
carries no per-attempt error, every throw being swallowed by the
`catch`. -/
theorem c6_boost_dispatch_count :
    (∀ n : Nat, boostItem (fun _ => false) n (n : Int) = some n) ∧
      (∀ (failAt : Nat → Bool) (fuel n d : Nat),
        boostItem failAt fuel (n : Int) = some d → d = n) := by
  constructor
  · intro n
    unfold boostItem
    have h := boostLoop_all_ok n 0 (n : Int) 0 0 (by omega)
    rw [h]
    simp
  · intro failAt fuel n d h
    unfold boostItem at h
    have := boostLoop_some_eq failAt fuel 0 (n : Int) 0 0 d h
    omega

theorem c6_boost_dispatch_count_witness :
    boostItem (fun _ => false) 3 (3 : Int) = some 3 ∧
      boostItem (fun k => decide (k = 1)) 4 (3 : Int) = some 3 ∧ (3 : Nat) = 3 := by
  refine ⟨c6_boost_dispatch_count.1 3, by rfl, ?_⟩
  exact c6_boost_dispatch_count.2 (fun k => decide (k = 1)) 4 3 3 (by rfl)

/-- C8: the query normalizer reads no instance state: applied to the same
URL from any two receiver states it returns the identical result, which
is the result of the pure function `getQueryParameters`. -/
theorem c8_normalize_deterministic (s1 s2 : St) (url : String) :
    getQueryParametersM s1 url = getQueryParametersM s2 url ∧
      getQueryParametersM s1 url = getQueryParameters url :=
  ⟨rfl, rfl⟩

/-- C4 counterexample: with a duplicate key whose first value is empty,
the merge does not join with a comma — `if (paramsObject[key])` is false
for the stored empty string, so the second value overwrites it. -/
theorem c4_counterexample :
    getQueryParameters "https://www.vinted.be/catalog?a=&a=1" = .ok "a=1" ∧
      "a=1" ≠ "a=,1" := by
  exact ⟨by rfl, by decide⟩

/-- C4 (amended): the substitutions `catalog[]` to `catalog_id[]`,
`status[]` to `status_id[]` and `[]` to `s` apply in that order, duplicate
keys join their values with a comma in encounter order — except that an
accumulated empty value is overwritten instead of joined — and the key
`time` is dropped: both concrete examples of the claim hold, and a
three-way duplicate joins in encounter order. -/
theorem c4_substitutions_and_merge :
    getQueryParameters "https://www.vinted.be/catalog?catalog[]=1&catalog[]=2&time=999" =
        .ok "catalog_ids=1,2" ∧
      getQueryParameters "https://www.vinted.be/catalog?status[]=1&brand[]=5" =
        .ok "status_ids=1&brands=5" ∧
      getQueryParameters "https://www.vinted.be/catalog?b=1&b=2&b=3" = .ok "b=1,2,3" := by
  exact ⟨by rfl, by rfl, by rfl⟩

/-- C3 counterexample: the regex group `(www.)?` has an unescaped dot, so
`www!vinted.be` — neither a `www.` prefix nor a bare `vinted.<tld>` host —
is accepted and the call succeeds instead of raising the format error. -/
theorem c3_counterexample :
    getQueryParameters "https://www!vinted.be/catalog?x=1" = .ok "x=1" := by rfl

theorem addParam_ok (ps : List (String × String)) (p : String)
    (hp : (splitOnS p "=").length = 2) : ∃ ps2, addParam ps p = .ok ps2 := by
  unfold addParam
  rw [if_neg (not_not_intro hp)]
  dsimp only
  cases assocGet ((splitOnS p "=").headI) ps with
  | none => exact ⟨_, rfl⟩
  | some oldv =>
    dsimp only
    split
    · exact ⟨_, rfl⟩
    · exact ⟨_, rfl⟩

theorem buildParams_error_of_bad (l : List String) :
    ∀ ps, (∃ p ∈ l, (splitOnS p "=").length ≠ 2) →
      ∃ q ∈ l, (splitOnS q "=").length ≠ 2 ∧
        buildParams ps l = .error (.invalidParam q) := by
  induction l with
  | nil =>
    intro ps h
    simp at h
  | cons p rest ih =>
    intro ps h
    by_cases hp : (splitOnS p "=").length = 2
    · obtain ⟨ps2, hps2⟩ := addParam_ok ps p hp
      obtain ⟨q, hqmem, hqbad⟩ := h
      have hq : q ∈ rest := by
        rcases List.mem_cons.mp hqmem with hqp | hqr
        · subst hqp
          exact absurd hp hqbad
        · exact hqr
      obtain ⟨q2, hq2mem, hq2bad, heq⟩ := ih ps2 ⟨q, hq, hqbad⟩
      refine ⟨q2, List.mem_cons.mpr (Or.inr hq2mem), hq2bad, ?_⟩
      unfold buildParams
      rw [hps2]
      exact heq
    · refine ⟨p, List.mem_cons.mpr (Or.inl rfl), hp, ?_⟩
      unfold buildParams addParam
      rw [if_pos (show (splitOnS p "=").length ≠ 2 from hp)]

/-- C3 (amended): after percent-decoding, the accepted shape is `https://`
followed by either `vinted.` or `www` plus one arbitrary non-line-break
character and then `vinted.`, a non-empty lowercase TLD, `/vetements?` or
`/catalog?`, and one non-whitespace character; every decoded input
outside this shape fails with the format error, an input that does not
split into exactly two segments on `?` fails with the parameters error,
and a post-substitution parameter that does not split into exactly two
parts on `=` fails naming an offending parameter. -/
theorem c3_url_validation (u d : String) (hdec : decodeURI u = some d) :
    (vintedRegexTest d = false → getQueryParameters u = .error .invalidFormat) ∧
      (vintedRegexTest d = true → (splitOnS d "?").length ≠ 2 →
        getQueryParameters u = .error .invalidParams) ∧
      (vintedRegexTest d = true → (splitOnS d "?").length = 2 →
        (∃ p ∈ splitOnS (replaceAllS (replaceAllS (replaceAllS ((splitOnS d "?").getD 1 "")
            "catalog[]" "catalog_id[]") "status[]" "status_id[]") "[]" "s") "&",
          (splitOnS p "=").length ≠ 2) →
        ∃ q, (splitOnS q "=").length ≠ 2 ∧
          getQueryParameters u = .error (.invalidParam q)) := by
  refine ⟨?_, ?_, ?_⟩
  · intro hv
    unfold getQueryParameters
    rw [hdec]
    dsimp only
    rw [if_pos (by simp [hv])]
  · intro hv hlen
    unfold getQueryParameters
    rw [hdec]
    dsimp only
    rw [if_neg (by simp [hv]), if_pos hlen]
  · intro hv hlen hbad
    unfold getQueryParameters
    rw [hdec]
    dsimp only
    rw [if_neg (by simp [hv]), if_neg (not_not_intro hlen)]
    obtain ⟨q, _, hqbad, heq⟩ := buildParams_error_of_bad _ [] hbad
    refine ⟨q, hqbad, ?_⟩
    dsimp only
    rw [heq]

theorem c3_url_validation_witness :
    getQueryParameters "https://example.com/catalog?x=1" = .error .invalidFormat ∧
      getQueryParameters "https://www.vinted.be/catalog?a=1?b=2" = .error .invalidParams ∧
      ∃ q, (splitOnS q "=").length ≠ 2 ∧
        getQueryParameters "https://www.vinted.be/catalog?a=1&b" = .error (.invalidParam q) := by
  refine ⟨?_, ?_, ?_⟩
  · exact (c3_url_validation "https://example.com/catalog?x=1"
      "https://example.com/catalog?x=1" (by rfl)).1 (by rfl)
  · exact (c3_url_validation "https://www.vinted.be/catalog?a=1?b=2"
      "https://www.vinted.be/catalog?a=1?b=2" (by rfl)).2.1 (by rfl) (by decide)
  · exact (c3_url_validation "https://www.vinted.be/catalog?a=1&b"
      "https://www.vinted.be/catalog?a=1&b" (by rfl)).2.2 (by rfl) (by decide)
      ⟨"b", by decide, by decide⟩

/-- C7 counterexample: a `set-cookie` header that contains the cookie
name but no `_vinted_fr_session=` occurrence makes `split(...)[1]`
undefined, so the subsequent `.split(";")` raises a TypeError — the call
neither succeeds nor raises the acquisition error the claim promises for
every failure. -/
theorem c7_counterexample :
    extractSessionCookie (some "_vinted_fr_session") = .error .typeError ∧
      SessErr.typeError ≠ SessErr.acquisition := by
  exact ⟨by rfl, by decide⟩

/-- C7 (amended): the acquisition error is raised exactly when the header
is absent or does not contain the cookie name; when the header contains
the name but not `_vinted_fr_session=`, a TypeError is raised instead of
the acquisition error; when `_vinted_fr_session=` occurs, the value
stored — overwriting any previous token — is the text between the first
`_vinted_fr_session=` and the next `;`. -/
theorem c7_session_extraction :
    extractSessionCookie none = .error .acquisition ∧
      (∀ h, includesStr h "_vinted_fr_session" = false →
        extractSessionCookie (some h) = .error .acquisition) ∧
      (∀ h, includesStr h "_vinted_fr_session" = true →
        extractSessionCookie (some h) ≠ .error .acquisition) ∧
      (∀ h t, includesStr h "_vinted_fr_session" = true →
        (splitOnS h "_vinted_fr_session=").get? 1 = some t →
        extractSessionCookie (some h) = .ok ((splitOnS t ";").headI)) ∧
      (∀ (o : Oracle) (s : St) (tok : String),
        extractSessionCookie (o.setCookieAt s.nSess) = .ok tok →
        fetchSessionCookie o s =
          .ok { (getProxy o s).2 with nSess := s.nSess + 1, cookie := some tok }) := by
  refine ⟨by rfl, ?_, ?_, ?_, ?_⟩
  · intro h hinc
    unfold extractSessionCookie
    dsimp only
    rw [if_pos (by simp [hinc])]
  · intro h hinc
    unfold extractSessionCookie
    dsimp only
    rw [if_neg (by simp [hinc])]
    cases hg : (splitOnS h "_vinted_fr_session=").get? 1 with
    | none =>
      intro hcon
      simp at hcon
    | some t =>
      intro hcon
      simp at hcon
  · intro h t hinc hg
    unfold extractSessionCookie
    dsimp only
    rw [if_neg (by simp [hinc]), hg]
  · intro o s tok hok
    unfold fetchSessionCookie
    dsimp only
    rw [show (getProxy o s).2.nSess = s.nSess from (getProxy_snd_core o s).2.2.1, hok]

theorem fetchSessionCookie_ok (o : Oracle) (s : St) (tok : String)
    (hok : extractSessionCookie (o.setCookieAt s.nSess) = .ok tok) :
    fetchSessionCookie o s =
      .ok { (getProxy o s).2 with nSess := s.nSess + 1, cookie := some tok } := by
  unfold fetchSessionCookie
  dsimp only
  rw [show (getProxy o s).2.nSess = s.nSess from (getProxy_snd_core o s).2.2.1, hok]

theorem classifyStep_staleBody (o : Oracle) (s : St)
    (hb : o.bodyAt s.nGet = staleBody) :
    classifyStep o s = .stale { (getProxy o s).2 with nGet := s.nGet + 1 } := by
  unfold classifyStep
  dsimp only
  rw [(getProxy_snd_core o s).2.1, hb]
  rw [if_neg (by decide), if_neg (by decide)]
  rw [show jsonParse staleBody = some staleObj from by rfl]
  dsimp only
  by_cases hp : (getProxy o s).1 = ""
  · rw [if_neg (show ¬ ((getProxy o s).1 ≠ "") from not_not_intro hp)]
    dsimp only
    exact sentinelDispatch_stale staleObj _ (by rfl)
  · rw [if_pos (show (getProxy o s).1 ≠ "" from hp)]
    rw [show staleObj =
      JsValue.obj [("message_code", JsValue.str "invalid_authentication_token")] from rfl]
    rw [setProxyField_obj]
    dsimp only
    exact sentinelDispatch_stale _ _ (by rfl)

theorem classifyStep_success (o : Oracle) (s : St) (j j2 : JsValue)
    (h1 : includesStr (o.bodyAt s.nGet) "Request rate limit exceeded" = false)
    (h2 : includesStr (o.bodyAt s.nGet) "<" = false)
    (h3 : jsonParse (o.bodyAt s.nGet) = some j)
    (hann : (if (getProxy o s).1 ≠ "" then setProxyField j (getProxy o s).1 else some j) =
      some j2)
    (hm1 : messageCodeIs j "invalid_authentication_token" = some false)
    (hm2 : messageCodeIs j "not_found" = some false) :
    classifyStep o s = .ok j2 { (getProxy o s).2 with nGet := s.nGet + 1 } := by
  unfold classifyStep
  dsimp only
  rw [(getProxy_snd_core o s).2.1, h1, h2, h3]
  rw [if_neg (by simp), if_neg (by simp)]
  dsimp only
  rw [hann]
  dsimp only
  exact sentinelDispatch_ok j2 _
    ((messageCodeIs_annotated j j2 _ _ hann).trans hm1)
    ((messageCodeIs_annotated j j2 _ _ hann).trans hm2)

theorem attempt_allStale (s : St) : ∃ s2, attempt oAllStale s = .stale s2 := by
  unfold attempt
  cases hens : ensureSession oAllStale s with
  | error e =>
    exfalso
    unfold ensureSession at hens
    by_cases hm : cookieMissing s.cookie = true
    · rw [if_pos hm] at hens
      rw [fetchSessionCookie_ok oAllStale s "tokB" (by rfl)] at hens
      cases hens
    · rw [if_neg hm] at hens
      cases hens
  | ok s1 =>
    exact ⟨_, classifyStep_staleBody oAllStale s1 (by rfl)⟩

/-- C1 (amended): the stale-token branch re-acquires a session and
re-enters `#request` with no depth bound and no AuthenticationError path:
against a server that answers every request with the stale sentinel (and
every session fetch with a valid cookie) the call never terminates —
every recursion budget is exhausted. -/
theorem c1_unbounded_stale_retry (fuel : Nat) :
    ∀ s : St, requestRec oAllStale fuel s = .diverge := by
  induction fuel with
  | zero => intro s; rfl
  | succ n ih =>
    intro s
    unfold requestRec
    obtain ⟨s2, hs2⟩ := attempt_allStale s
    rw [hs2]
    dsimp only
    rw [fetchSessionCookie_ok oAllStale s2 "tokB" (by rfl)]
    exact ih _

/-- C1 counterexample: two consecutive stale responses do not end the
call with an authentication failure after a single retry — the pipeline
re-acquires a second time and a third attempt happens; with a third
response that is a success payload the call returns it (final state
records two session re-acquisitions and three GETs), and a recursion
budget of two attempts is simply exhausted. -/
theorem c1_counterexample :
    requestRec oTwoStale 3 sReady = .ok goodObj ⟨false, some "tokB", 0, 2, 3⟩ ∧
      requestRec oTwoStale 2 sReady = .diverge := by
  exact ⟨by rfl, by rfl⟩

/-- C5: starting with no session, against a server whose first response
is the stale sentinel and whose second parses to a non-sentinel payload,
`#request` returns that payload; the session is re-acquired
unconditionally between the two attempts (two session fetches in total),
overwriting the first token `t0`, and the token held during the second
attempt — and in the final state — is `t1`, the one extracted from the
second session fetch. -/
theorem c5_refresh_then_success (o : Oracle) (j : JsValue) (t0 t1 : String)
    (hb0 : o.bodyAt 0 = staleBody)
    (h1 : includesStr (o.bodyAt 1) "Request rate limit exceeded" = false)
    (h2 : includesStr (o.bodyAt 1) "<" = false)
    (h3 : jsonParse (o.bodyAt 1) = some j)
    (hm1 : messageCodeIs j "invalid_authentication_token" = some false)
    (hm2 : messageCodeIs j "not_found" = some false)
    (hs0 : extractSessionCookie (o.setCookieAt 0) = .ok t0)
    (hs1 : extractSessionCookie (o.setCookieAt 1) = .ok t1)
    (ht1 : t1 ≠ "") :
    requestRec o 2 sFresh = .ok j ⟨false, some t1, 0, 2, 2⟩ := by
  have e0 : ensureSession o sFresh = .ok ⟨false, some t0, 0, 1, 0⟩ := by
    unfold ensureSession
    rw [if_pos (show cookieMissing sFresh.cookie = true from rfl)]
    exact fetchSessionCookie_ok o sFresh t0 hs0
  have a1 : attempt o sFresh = .stale ⟨false, some t0, 0, 1, 1⟩ := by
    unfold attempt
    rw [e0]
    exact classifyStep_staleBody o ⟨false, some t0, 0, 1, 0⟩ hb0
  have r1 : fetchSessionCookie o ⟨false, some t0, 0, 1, 1⟩ =
      .ok ⟨false, some t1, 0, 2, 1⟩ :=
    fetchSessionCookie_ok o ⟨false, some t0, 0, 1, 1⟩ t1 hs1
  have hcm : cookieMissing (some t1) = false := by
    simp [cookieMissing, ht1]
  have a2 : attempt o ⟨false, some t1, 0, 2, 1⟩ = .ok j ⟨false, some t1, 0, 2, 2⟩ := by
    rw [attempt_ready o ⟨false, some t1, 0, 2, 1⟩ hcm]
    exact classifyStep_success o ⟨false, some t1, 0, 2, 1⟩ j j h1 h2 h3 (by rfl) hm1 hm2
  show requestRec o (1 + 1) sFresh = .ok j ⟨false, some t1, 0, 2, 2⟩
  unfold requestRec
  rw [a1]
  dsimp only
  rw [r1]
  unfold requestRec
  rw [a2]

theorem c5_refresh_then_success_witness :
    requestRec oStaleThenGood 2 sFresh = .ok goodObj ⟨false, some "tokB", 0, 2, 2⟩ :=
  c5_refresh_then_success oStaleThenGood goodObj "tokA" "tokB" (by rfl) (by rfl)
    (by rfl) (by rfl) (by rfl) (by rfl) (by rfl) (by rfl) (by decide)

/-- C10: in the stale-then-success run with a proxy handler configured,
each of the three proxy-source calls (first attempt's GET, the session
refresh, the retry's GET) consumes its own descriptor — the final state
records three — and the returned payload is the annotated one, whose
`proxy` property reads back `proxyAt 2`, the descriptor of the final,
successful attempt, not the first attempt's `proxyAt 0`; with no proxy
handler the same run returns the payload without any annotation. The
annotation hypothesis `hann` confines the run to payloads the write
succeeds on (objects and arrays); on null or a primitive the write
itself throws. -/
theorem c10_fresh_proxy_per_attempt (o : Oracle) (j j2 : JsValue) (t1 : String)
    (hb0 : o.bodyAt 0 = staleBody)
    (h1 : includesStr (o.bodyAt 1) "Request rate limit exceeded" = false)
    (h2 : includesStr (o.bodyAt 1) "<" = false)
    (h3 : jsonParse (o.bodyAt 1) = some j)
    (hm1 : messageCodeIs j "invalid_authentication_token" = some false)
    (hm2 : messageCodeIs j "not_found" = some false)
    (hann : setProxyField j (o.proxyAt 2) = some j2)
    (hs0 : extractSessionCookie (o.setCookieAt 0) = .ok t1)
    (ht1 : t1 ≠ "")
    (hp2 : o.proxyAt 2 ≠ "") :
    (requestRec o 2 sReadyP = .ok j2 ⟨true, some t1, 3, 1, 2⟩ ∧
      getField j2 "proxy" = some (.str (o.proxyAt 2))) ∧
      requestRec o 2 sReady = .ok j ⟨false, some t1, 0, 1, 2⟩ := by
  have hcm : cookieMissing (some t1) = false := by
    simp [cookieMissing, ht1]
  refine ⟨⟨?_, getField_setProxyField j j2 _ hann⟩, ?_⟩
  · have a1 : attempt o sReadyP = .stale ⟨true, some "tok0", 1, 0, 1⟩ := by
      rw [attempt_ready o sReadyP (by rfl)]
      exact classifyStep_staleBody o sReadyP hb0
    have r1 : fetchSessionCookie o ⟨true, some "tok0", 1, 0, 1⟩ =
        .ok ⟨true, some t1, 2, 1, 1⟩ :=
      fetchSessionCookie_ok o ⟨true, some "tok0", 1, 0, 1⟩ t1 hs0
    have a2 : attempt o ⟨true, some t1, 2, 1, 1⟩ = .ok j2 ⟨true, some t1, 3, 1, 2⟩ := by
      rw [attempt_ready o ⟨true, some t1, 2, 1, 1⟩ hcm]
      refine classifyStep_success o ⟨true, some t1, 2, 1, 1⟩ j j2 h1 h2 h3 ?_ hm1 hm2
      rw [if_pos (show (getProxy o ⟨true, some t1, 2, 1, 1⟩).1 ≠ "" from hp2)]
      exact hann
    show requestRec o (1 + 1) sReadyP = _
    unfold requestRec
    rw [a1]
    dsimp only
    rw [r1]
    unfold requestRec
    rw [a2]
  · have a1 : attempt o sReady = .stale ⟨false, some "tok0", 0, 0, 1⟩ := by
      rw [attempt_ready o sReady (by rfl)]
      exact classifyStep_staleBody o sReady hb0
    have r1 : fetchSessionCookie o ⟨false, some "tok0", 0, 0, 1⟩ =
        .ok ⟨false, some t1, 0, 1, 1⟩ :=
      fetchSessionCookie_ok o ⟨false, some "tok0", 0, 0, 1⟩ t1 hs0
    have a2 : attempt o ⟨false, some t1, 0, 1, 1⟩ = .ok j ⟨false, some t1, 0, 1, 2⟩ := by
      rw [attempt_ready o ⟨false, some t1, 0, 1, 1⟩ hcm]
      exact classifyStep_success o ⟨false, some t1, 0, 1, 1⟩ j j h1 h2 h3 (by rfl) hm1 hm2
    show requestRec o (1 + 1) sReady = _
    unfold requestRec
    rw [a1]
    dsimp only
    rw [r1]
    unfold requestRec
    rw [a2]

theorem c10_fresh_proxy_per_attempt_witness :
    (requestRec oProxyStale 2 sReadyP =
        .ok (.obj [("id", .num "1"), ("proxy", .str "pC")]) ⟨true, some "tokA", 3, 1, 2⟩ ∧
      getField (.obj [("id", .num "1"), ("proxy", .str "pC")]) "proxy" =
        some (.str (oProxyStale.proxyAt 2))) ∧
      requestRec oProxyStale 2 sReady = .ok goodObj ⟨false, some "tokA", 0, 1, 2⟩ :=
  c10_fresh_proxy_per_attempt oProxyStale goodObj
    (.obj [("id", .num "1"), ("proxy", .str "pC")]) "tokA" (by rfl) (by rfl) (by rfl)
    (by rfl) (by rfl) (by rfl) (by rfl) (by rfl) (by decide) (by decide)

theorem c7_session_extraction_witness :
    extractSessionCookie (some "foo=bar") = .error .acquisition ∧
      extractSessionCookie (some hdrA) ≠ .error .acquisition ∧
      extractSessionCookie (some hdrA) = .ok ((splitOnS "tokA; path=/" ";").headI) ∧
      fetchSessionCookie oRate sReady =
        .ok { (getProxy oRate sReady).2 with nSess := 1, cookie := some "tokB" } := by
  refine ⟨?_, ?_, ?_, ?_⟩
  · exact c7_session_extraction.2.1 "foo=bar" (by rfl)
  · exact c7_session_extraction.2.2.1 hdrA (by rfl)
  · exact c7_session_extraction.2.2.2.1 hdrA "tokA; path=/" (by rfl) (by rfl)
  · exact c7_session_extraction.2.2.2.2 oRate sReady "tokB" (by rfl)
